import Mathlib

/-!
Verification development for the Raju-ai- agent repository.

Shallow embedding of the TypeScript sources:
  - `src/lib/services/memory-store.ts`  (MemoryStore)
  - `src/lib/core/autonomous-agent.ts`  (AutonomousAgent)
  - `src/lib/services/api-vault.ts`     (APIVault)
  - `src/lib/services/model-manager.ts` (ModelManager)

Persistent storage (AsyncStorage / SecureStore) is modelled as explicit
state: the experiences array stored under the single JSON key becomes a
`List Experience`, the models array a `List Model`, and the secure vault a
function `Provider → Option String`.  `Date.now()` is passed in as an
explicit `now : Nat` parameter.  A thrown JS `Error` is modelled as
`Except.error s` where `s` is the JS `String(error)` rendering, i.e.
`"Error: " ++ message`.  JS numbers are modelled as `Nat`/`Rat` (the code
performs no operation where float rounding changes any claim's outcome).
-/

namespace Raju

/-- `pat` occurs as a contiguous run at some position of `s` (helper for
JS `String.prototype.includes`). -/
def charsInclude (pat : List Char) : List Char → Bool
  | [] => pat.isEmpty
  | c :: cs => pat.isPrefixOf (c :: cs) || charsInclude pat cs

/-- JS `s.includes(pat)`: `pat` occurs as a contiguous substring of `s`. -/
def strIncludes (s pat : String) : Bool :=
  charsInclude pat.data s.data

/-- JS `s.toLowerCase()` (ASCII lowering, applied character by character;
the repository only compares ASCII task text). -/
def strToLower (s : String) : String :=
  ⟨s.data.map Char.toLower⟩

/-- `ReasoningPhase.type` from `src/lib/types` (part_002). -/
inductive PhaseType
  | plan
  | execute
  | reflect
deriving DecidableEq

/-- One step in a reasoning trace, from `src/lib/types`.  The optional
`details` map (`Record<string, unknown>`, heterogeneous UI metadata) is
modelled by the dedicated functions `reflectSimilar`, `reflectSuccessRate`
etc. rather than by a field. -/
structure ReasoningPhase where
  type : PhaseType
  timestamp : Nat
  content : String
deriving DecidableEq

/-- Ordered plan/execute/reflect trace for one task execution. -/
structure ThoughtStream where
  id : String
  taskId : String
  phases : List ReasoningPhase
  startTime : Nat
  endTime : Option Nat
deriving DecidableEq

/-- `AgentMode.type`: `"offline" | "cloud"`. -/
inductive ModeType
  | offline
  | cloud
deriving DecidableEq

/-- The three remote providers of `api-vault.ts`. -/
inductive Provider
  | openai
  | anthropic
  | gemini
deriving DecidableEq

/-- The provider's string name as used in error messages. -/
def providerName : Provider → String
  | .openai => "openai"
  | .anthropic => "anthropic"
  | .gemini => "gemini"

/-- Durable record of one task execution, from `src/lib/types`.  The unused
reserved `embedding?` field is omitted (never written by any reachable
code, per the design notes). -/
structure Experience where
  id : String
  taskDescription : String
  mode : ModeType
  model : String
  input : String
  output : String
  reasoning : ThoughtStream
  success : Bool
  errorMessage : Option String
  timestamp : Nat
deriving DecidableEq

/-! ## MemoryStore (`src/lib/services/memory-store.ts`)

The store state is the experiences array serialized under
`EXPERIENCES_STORAGE_KEY`.  Reads never fail in the model (the source
degrades read failures to `[]`); the write-failure path (`StoreError`)
is an I/O condition outside the shallow embedding. -/

/-- `MAX_EXPERIENCES = 1000` (memory-store.ts line 11). -/
def MAX_EXPERIENCES : Nat := 1000

/-- Insert one experience into a list already sorted by `timestamp`
descending, keeping it sorted (used to model the JS
`sort((a, b) => b.timestamp - a.timestamp)`). -/
def insertByTimestampDesc (x : Experience) : List Experience → List Experience
  | [] => [x]
  | y :: ys =>
    if x.timestamp ≤ y.timestamp then y :: insertByTimestampDesc x ys
    else x :: y :: ys

/-- Sort experiences by `timestamp` descending (newest first), modelling
`experiences.sort((a, b) => b.timestamp - a.timestamp)`. -/
def sortByTimestampDesc : List Experience → List Experience
  | [] => []
  | x :: xs => insertByTimestampDesc x (sortByTimestampDesc xs)

/-- `MemoryStore.cleanupOldExperiences` (lines 182-197): reads the stored
array, keeps the `floor(MAX_EXPERIENCES * 0.8)` newest records by
timestamp and writes them back.  Returns the new storage state. -/
def cleanupOldExperiences (store : List Experience) : List Experience :=
  let keepCount := MAX_EXPERIENCES * 8 / 10
  let sorted := sortByTimestampDesc store
  sorted.take keepCount

/-- `MemoryStore.storeExperience` (lines 42-60), faithfully including its
use of the `experiences` array that was read BEFORE the cleanup ran: the
cleanup rewrites storage to `_evicted`, but the subsequent
`AsyncStorage.setItem` writes `experiences.push(experience)` — the stale
pre-cleanup array plus the new record — overwriting the cleanup's
result.  Returns the final storage state. -/
def storeExperience (store : List Experience) (experience : Experience) :
    List Experience :=
  let experiences := store
  let _evicted :=
    if MAX_EXPERIENCES ≤ experiences.length then cleanupOldExperiences store
    else store
  experiences ++ [experience]

/-- `MemoryStore.deleteExperience` (lines 202-212): filters out the record
with the given id and writes the rest back (no error when absent). -/
def deleteExperience (store : List Experience) (experienceId : String) :
    List Experience :=
  store.filter (fun e => e.id != experienceId)

/-- Result shape of `MemoryStore.getSuccessRate`. -/
structure SuccessRateResult where
  successful : Nat
  failed : Nat
  rate : Rat
deriving DecidableEq

/-- `MemoryStore.getSuccessRate` (lines 248-260). -/
def getSuccessRate (store : List Experience) : SuccessRateResult :=
  let successful := (store.filter (fun e => e.success)).length
  let failed := store.length - successful
  let rate : Rat :=
    if 0 < store.length then ((successful : Rat) / (store.length : Rat)) * 100
    else 0
  ⟨successful, failed, rate⟩

/-- A concrete experience used for tests and counterexamples: timestamp
`i`, success flag `s`. -/
def mkExp (i : Nat) (s : Bool) : Experience :=
  ⟨"exp_" ++ toString i, "task " ++ toString i, ModeType.offline, "default",
   "in", "out", ⟨"", "", [], 0, none⟩, s, none, i⟩

/-! ## AutonomousAgent (`src/lib/core/autonomous-agent.ts`)

The agent's `mode` field, the credential vault state and `Date.now()` are
explicit parameters.  The network layer (`fetch` inside
`callOpenAI`/`callAnthropic`/`callGemini`) is abstracted by an oracle:
given the provider, the task text and the api key it returns either the
extracted completion text or, for a thrown error, the error's
`String(error)` rendering. -/

/-- `AgentMode` from `src/lib/types`. -/
structure AgentMode where
  type : ModeType
  activeModel : Option String
  activeProvider : Option Provider
deriving DecidableEq

/-- Network oracle abstracting the three `call*` provider functions
(autonomous-agent.ts lines 221-320). -/
def NetOracle : Type := Provider → String → String → Except String String

/-- `AutonomousAgent.analyzePlan` (lines 325-327). -/
def analyzePlan (taskDescription : String) : String :=
  "Plan for: \"" ++ taskDescription ++
    "\"\n1. Analyze requirements\n2. Identify approach\n3. Execute steps\n4. Verify results"

/-- `AutonomousAgent.executeOffline` (lines 189-193). -/
def executeOffline (taskDescription : String) : String :=
  "[OFFLINE MODE] Processing: " ++ taskDescription ++
    "\n\nNote: Local GGUF model integration pending."

/-- `APIVault.getKey` (api-vault.ts lines 28-37): a read of the secure
store, modelled as applying the vault state (retrieval failures degrade
to `none` in the source and are not separately modelled). -/
def getKey (vault : Provider → Option String) (provider : Provider) :
    Option String :=
  vault provider

/-- `AutonomousAgent.executeCloud` (lines 198-216): resolve the provider
(defaulting to `openai`), look up the credential, throw
`Error("No API key found for " + provider)` when absent, otherwise call
the provider-specific function.  (The `default` switch branch is
unreachable: the provider type is a closed union.) -/
def executeCloud (vault : Provider → Option String) (net : NetOracle)
    (mode : AgentMode) (taskDescription : String) : Except String String :=
  let provider := mode.activeProvider.getD Provider.openai
  match getKey vault provider with
  | none => Except.error ("Error: No API key found for " ++ providerName provider)
  | some apiKey => net provider taskDescription apiKey

/-- Content of the Execute phase, `AutonomousAgent.executePhase`
(lines 121-149): branch on the mode; the surrounding try/catch converts
any thrown error into content `"Execution failed: " ++ String(error)`
(`executeOffline` is total, so only the cloud branch can throw). -/
def executePhaseContent (vault : Provider → Option String) (net : NetOracle)
    (mode : AgentMode) (taskDescription : String) : String :=
  match mode.type with
  | ModeType.offline => executeOffline taskDescription
  | ModeType.cloud =>
    match executeCloud vault net mode taskDescription with
    | Except.ok result => result
    | Except.error e => "Execution failed: " ++ e

/-- The Reflect phase's similar-experience query,
`AutonomousAgent.reflectPhase` lines 159-162: past records whose
`taskDescription`, lowercased, contains the lowercased current task text. -/
def reflectSimilar (store : List Experience) (taskDescription : String) :
    List Experience :=
  store.filter (fun e =>
    strIncludes (strToLower e.taskDescription) (strToLower taskDescription))

/-- The Reflect phase's reported success rate, reflectPhase line 173:
`similar.filter(success).length / (similar.length || 1)`. -/
def reflectSuccessRate (store : List Experience) (taskDescription : String) :
    Rat :=
  let similar := reflectSimilar store taskDescription
  ((similar.filter (fun e => e.success)).length : Rat) /
    (((if similar.length = 0 then 1 else similar.length) : Nat) : Rat)

/-- Modelled from the spec's words, for comparison with `reflectSimilar`
(the source's reflectPhase lines 160-162 is the authority): records whose
`taskDescription` contains the current task text as a case-insensitive
substring OR vice versa — the symmetric "contains" match the spec
describes. -/
def reflectSimilarSpec (store : List Experience) (taskDescription : String) :
    List Experience :=
  store.filter (fun e =>
    strIncludes (strToLower e.taskDescription) (strToLower taskDescription) ||
      strIncludes (strToLower taskDescription) (strToLower e.taskDescription))

/-- JS `x.toFixed(1)` for the non-negative rates produced here: one-decimal
fixed rendering (round half up; the exact tie-rounding of JS floats is
irrelevant to every claim, none of which mentions this display string). -/
def ratToFixed1 (q : Rat) : String :=
  let scaled : Int := (q * 10 + 1 / 2).floor
  toString (scaled / 10) ++ "." ++ toString (scaled % 10)

/-- `AutonomousAgent.selfCorrect` (lines 365-368), taking the success rate
it computes over the similar experiences (the same value as
`reflectSuccessRate`). -/
def selfCorrect (successRate : Rat) : String :=
  "Reflection: Task completed. Success rate for similar tasks: " ++
    ratToFixed1 (successRate * 100) ++ "%"

/-- Result of one `executeTask` call: the returned experience and the
store state after persisting it. -/
structure ExecOutcome where
  experience : Experience
  newStore : List Experience
deriving DecidableEq

/-- `AutonomousAgent.executeTask` (lines 25-87).  Every phase catches its
internal errors (plan 109-115, execute 142-148, reflect 177-183) and the
storage write failure is an I/O condition outside the model, so the
`catch` branch of `executeTask` (lines 67-86) is unreachable here and the
function is total: it builds the three-phase thought stream, the
experience with `success = !executeContent.includes("error")` and no
`errorMessage`, and appends it via `MemoryStore.storeExperience`. -/
def executeTask (vault : Provider → Option String) (net : NetOracle)
    (mode : AgentMode) (store : List Experience) (taskDescription : String)
    (now : Nat) : ExecOutcome :=
  let taskId := "task_" ++ toString now
  let planContent := analyzePlan taskDescription
  let execContent := executePhaseContent vault net mode taskDescription
  let reflectText := selfCorrect (reflectSuccessRate store taskDescription)
  let thoughtStream : ThoughtStream :=
    ⟨"thought_" ++ taskId, taskId,
     [⟨PhaseType.plan, now, planContent⟩,
      ⟨PhaseType.execute, now, execContent⟩,
      ⟨PhaseType.reflect, now, reflectText⟩],
     now, some now⟩
  let experience : Experience :=
    ⟨"exp_" ++ taskId, taskDescription, mode.type,
     mode.activeModel.getD "default", taskDescription, execContent,
     thoughtStream, !(strIncludes execContent "error"), none, now⟩
  ⟨experience, storeExperience store experience⟩

/-! ## APIVault (`src/lib/services/api-vault.ts`)

The secure store is the vault state `Provider → Option String`. -/

/-- `APIKey` from `src/lib/types`. -/
structure APIKey where
  provider : Provider
  key : String
  isValid : Bool
  lastVerified : Nat
deriving DecidableEq

/-- `APIVault.hasKey` (lines 55-58). -/
def hasKey (vault : Provider → Option String) (provider : Provider) : Bool :=
  (getKey vault provider).isSome

/-- The provider list iterated by `getAllKeys` (line 129). -/
def vaultProviders : List Provider :=
  [Provider.openai, Provider.anthropic, Provider.gemini]

/-- `APIVault.getAllKeys` (lines 128-145): for each provider with a stored
key, push an entry whose `key` field is the literal `"***hidden***"`. -/
def getAllKeys (vault : Provider → Option String) (now : Nat) : List APIKey :=
  vaultProviders.foldl
    (fun keys provider =>
      if hasKey vault provider then
        keys ++ [⟨provider, "***hidden***", true, now⟩]
      else keys)
    []

/-! ## ModelManager (`src/lib/services/model-manager.ts`)

The models array under `MODELS_STORAGE_KEY` is a `List Model`; the file
system is abstracted by the download outcome. -/

/-- `Model` from `src/lib/types`. -/
structure Model where
  id : String
  name : String
  url : String
  fileSize : Nat
  checksum : Option String
  downloadedAt : Nat
  localPath : String
  format : String
  isActive : Bool
deriving DecidableEq

/-- `StorageInfo` from `src/lib/types`. -/
structure StorageInfo where
  totalSpace : Nat
  freeSpace : Nat
  usedSpace : Nat
deriving DecidableEq

/-- `ModelManager.getStorageInfo` (lines 32-45): a placeholder that always
reports zero total, free and used space. -/
def getStorageInfo : StorageInfo :=
  ⟨0, 0, 0⟩

/-- `FileIntegrityCheck` result fields actually written by the source
(`expectedSize`/`checksum`/`expectedChecksum` are never set). -/
structure FileIntegrityCheck where
  fileSize : Nat
  isValid : Bool
  error : Option String
deriving DecidableEq

/-- `ModelManager.verifyFileIntegrity` (lines 116-148): `fileInfo` is
`some size` when the file exists with that byte size.  The float test
`size / (1024 * 1024) < 1` is exactly `size < 1024 * 1024` on the integer
byte count. -/
def verifyFileIntegrity (fileInfo : Option Nat) : FileIntegrityCheck :=
  match fileInfo with
  | none => ⟨0, false, some "File does not exist"⟩
  | some size =>
    if size < 1024 * 1024 then ⟨size, false, some "File size too small"⟩
    else ⟨size, true, none⟩

/-- Outcome of the platform download primitive `downloadAsync`: `failed`
models a null result, `completed fileInfo` a finished transfer leaving a
file whose `getInfoAsync` answer is `fileInfo` (`none` = missing,
`some size` = exists with that byte size). -/
inductive DownloadOutcome
  | failed
  | completed (fileInfo : Option Nat)

/-- The models directory path constant (model-manager.ts line 10, with the
platform document directory abstracted away). -/
def MODELS_DIR : String := "models/"

/-- `ModelManager.downloadModel` (lines 50-111): check free space, run the
download, verify integrity (deleting the file on failure), then build and
save the model record.  Errors carry the thrown `String(error)`. -/
def downloadModel (models : List Model) (url modelName : String)
    (outcome : DownloadOutcome) (now : Nat) :
    Except String (Model × List Model) :=
  let storage := getStorageInfo
  if storage.freeSpace < 100 * 1024 * 1024 then
    Except.error "Error: Insufficient storage space"
  else
    let modelPath := MODELS_DIR ++ modelName ++ ".gguf"
    match outcome with
    | DownloadOutcome.failed => Except.error "Error: Download failed"
    | DownloadOutcome.completed fileInfo =>
      let integrityCheck := verifyFileIntegrity fileInfo
      if integrityCheck.isValid then
        let model : Model :=
          ⟨"model_" ++ toString now, modelName, url, integrityCheck.fileSize,
           none, now, modelPath, "gguf", false⟩
        Except.ok (model, models ++ [model])
      else
        Except.error ("Error: File integrity check failed: " ++
          integrityCheck.error.getD "undefined")

/-- The arrow function inside `setActiveModel`'s map (lines 196-199):
spread all fields unchanged and set `isActive := (id == modelId)`. -/
def activateIn (modelId : String) (m : Model) : Model :=
  ⟨m.id, m.name, m.url, m.fileSize, m.checksum, m.downloadedAt,
   m.localPath, m.format, m.id == modelId⟩

/-- `ModelManager.setActiveModel` (lines 193-205): map over the stored
records setting `isActive := (id == modelId)`, all other fields spread
unchanged. -/
def setActiveModel (models : List Model) (modelId : String) : List Model :=
  models.map (activateIn modelId)

/-- All fields of a model record except `isActive`, for the
unchanged-fields part of the single-active-model claim. -/
def modelData (m : Model) :
    String × String × String × Nat × Option String × Nat × String × String :=
  (m.id, m.name, m.url, m.fileSize, m.checksum, m.downloadedAt,
   m.localPath, m.format)

/-! ## Concrete inputs used by counterexamples and witnesses -/

/-- A store seeded with `MAX_EXPERIENCES` records of strictly increasing
timestamps `0, 1, …, MAX_EXPERIENCES - 1`. -/
def seededStore : List Experience :=
  (List.range MAX_EXPERIENCES).map (fun i => mkExp i true)

/-- Four records: three successes, one failure. -/
def sampleStore4 : List Experience :=
  [mkExp 0 true, mkExp 1 true, mkExp 2 true, mkExp 3 false]

/-- A vault holding no credential for any provider. -/
def noKeyVault : Provider → Option String := fun _ => none

/-- A network oracle that always answers successfully. -/
def okNet : NetOracle := fun _ _ _ => Except.ok "x"

/-- Cloud mode with `openai` as the active provider. -/
def cloudOpenAIMode : AgentMode := ⟨ModeType.cloud, none, some Provider.openai⟩

/-- A vault holding one secret, for `openai` only. -/
def vaultA : Provider → Option String :=
  fun p => match p with
  | Provider.openai => some "sk-first-secret"
  | _ => none

/-- A vault with the same present providers as `vaultA` but a different
secret value. -/
def vaultB : Provider → Option String :=
  fun p => match p with
  | Provider.openai => some "sk-other-secret"
  | _ => none

/-- Two concrete model records with distinct ids. -/
def modelA : Model :=
  ⟨"m1", "a", "u1", 1048576, none, 1, "models/a.gguf", "gguf", false⟩

/-- Second concrete model record (initially active). -/
def modelB : Model :=
  ⟨"m2", "b", "u2", 2097152, none, 2, "models/b.gguf", "gguf", true⟩

/-! ## Helper lemmas -/

/-- The net effect of `storeExperience` on storage: the write of the stale
in-memory array makes it a plain append, whatever the store size. -/
lemma storeExperience_eq_append (store : List Experience) (e : Experience) :
    storeExperience store e = store ++ [e] := rfl

/-- Failures counted by filtering are the complement of successes. -/
lemma length_filter_not_success (l : List Experience) :
    (l.filter (fun e => !e.success)).length =
      l.length - (l.filter (fun e => e.success)).length := by
  induction l with
  | nil => rfl
  | cons e t ih =>
    have hle := List.length_filter_le (fun e => e.success) t
    cases he : e.success
    · simp [List.filter_cons, he, ih]
      omega
    · simp [List.filter_cons, he, ih]

/-- Unfolding of the `getAllKeys` fold: it pushes one masked entry per
provider that has a key, in provider-list order. -/
lemma foldl_keys_eq (vault : Provider → Option String) (now : Nat) :
    ∀ (l : List Provider) (acc : List APIKey),
      l.foldl (fun keys provider =>
        if hasKey vault provider then
          keys ++ [⟨provider, "***hidden***", true, now⟩]
        else keys) acc =
      acc ++ (l.filter (fun p => hasKey vault p)).map
        (fun p => ⟨p, "***hidden***", true, now⟩) := by
  intro l
  induction l with
  | nil => intro acc; simp
  | cons p t ih =>
    intro acc
    cases hp : hasKey vault p <;>
      simp [List.foldl_cons, hp, ih, List.filter_cons]

/-- The active records after `setActiveModel` are the images of the stored
records whose id equals the argument. -/
lemma setActiveModel_filter_active (models : List Model) (modelId : String) :
    (setActiveModel models modelId).filter (fun m => m.isActive) =
      (models.filter (fun m => m.id == modelId)).map (activateIn modelId) := by
  induction models with
  | nil => rfl
  | cons m t ih =>
    simp only [setActiveModel] at ih ⊢
    cases hm : m.id == modelId <;>
      simp [activateIn, List.filter_cons, hm, ih]

/-- With pairwise-distinct ids, at most one stored record can match the
requested id. -/
lemma length_filter_id_le_one (models : List Model) (modelId : String)
    (h : (models.map Model.id).Nodup) :
    (models.filter (fun m => m.id == modelId)).length ≤ 1 := by
  induction models with
  | nil => simp
  | cons m t ih =>
    simp only [List.map_cons, List.nodup_cons] at h
    cases hm : m.id == modelId
    · simpa [List.filter_cons, hm] using ih h.2
    · have hid : m.id = modelId := by simpa using hm
      have htail : t.filter (fun x => x.id == modelId) = [] := by
        rw [List.filter_eq_nil_iff]
        intro a ha hcontra
        have haid : a.id = modelId := by simpa using hcontra
        exact h.1 (List.mem_map.mpr ⟨a, ha, haid.trans hid.symm⟩)
      simp [List.filter_cons, hm, htail]

/-! ## Claim theorems -/

/-- C1 (code bug): the spec's eviction contract — seeding the store at the
maximum and storing once more should leave `floor(max * 0.8) + 1 = 801`
records with the oldest dropped — is violated: `storeExperience` pushes
onto the array it read BEFORE `cleanupOldExperiences` ran and writes that
stale array back, so the store ends with all `MAX_EXPERIENCES + 1 = 1001`
records and the oldest record (timestamp 0) is still present. -/
theorem storeExperience_eviction_clobbered :
    seededStore.length = MAX_EXPERIENCES ∧
    (storeExperience seededStore (mkExp 1000 true)).length =
      MAX_EXPERIENCES + 1 ∧
    (storeExperience seededStore (mkExp 1000 true)).length ≠
      MAX_EXPERIENCES * 8 / 10 + 1 ∧
    mkExp 0 true ∈ storeExperience seededStore (mkExp 1000 true) := by
  have hlen : seededStore.length = MAX_EXPERIENCES := by simp [seededStore]
  refine ⟨hlen, ?_, ?_, ?_⟩
  · rw [storeExperience_eq_append]; simp [hlen]
  · rw [storeExperience_eq_append]
    simp only [List.length_append, List.length_cons, List.length_nil, hlen]
    decide
  · rw [storeExperience_eq_append]
    exact List.mem_append_left _
      (List.mem_map.mpr ⟨0, List.mem_range.mpr (by decide), rfl⟩)

/-- C2 (counterexample): in cloud mode with no stored `openai` credential,
the persisted Experience is NOT a failure record: `executePhase` catches
the thrown error, the success heuristic checks for lowercase `"error"`
which `"Execution failed: Error: No API key found for openai"` does not
contain, so `success = true` and `errorMessage` is unset — contradicting
the claim that a failure Experience (success = false, errorMessage set)
is persisted and the error propagates to the caller. -/
theorem missing_credential_experience_not_failure :
    (executeTask noKeyVault okNet cloudOpenAIMode [] "do it" 5).experience.output =
      "Execution failed: Error: No API key found for openai" ∧
    (executeTask noKeyVault okNet cloudOpenAIMode [] "do it" 5).experience.success =
      true ∧
    (executeTask noKeyVault okNet cloudOpenAIMode [] "do it" 5).experience.errorMessage =
      none := by
  refine ⟨rfl, ?_, rfl⟩
  decide

/-- C2 (amended): in cloud mode with no stored credential for the selected
provider, `executeCloud` throws `Error("No API key found for <provider>")`
before any network call (the result is the same for every network
oracle), but `executePhase` catches the error, so `executeTask` completes
normally and persists exactly one Experience whose `output` is
`"Execution failed: Error: No API key found for <provider>"`, with
`success = true` (that text has no lowercase `"error"`) and `errorMessage`
unset. -/
theorem missing_credential_caught_not_propagated
    (vault : Provider → Option String) (net : NetOracle) (mode : AgentMode)
    (store : List Experience) (task : String) (now : Nat)
    (hmode : mode.type = ModeType.cloud)
    (hkey : getKey vault (mode.activeProvider.getD Provider.openai) = none) :
    executeCloud vault net mode task =
      Except.error ("Error: No API key found for " ++
        providerName (mode.activeProvider.getD Provider.openai)) ∧
    (∀ net2 : NetOracle,
      executeCloud vault net2 mode task = executeCloud vault net mode task) ∧
    (executeTask vault net mode store task now).experience.output =
      "Execution failed: " ++ ("Error: No API key found for " ++
        providerName (mode.activeProvider.getD Provider.openai)) ∧
    (executeTask vault net mode store task now).experience.success = true ∧
    (executeTask vault net mode store task now).experience.errorMessage = none ∧
    (executeTask vault net mode store task now).newStore.length =
      store.length + 1 := by
  have hcloud : executeCloud vault net mode task =
      Except.error ("Error: No API key found for " ++
        providerName (mode.activeProvider.getD Provider.openai)) := by
    simp [executeCloud, hkey]
  have hcontent : executePhaseContent vault net mode task =
      "Execution failed: " ++ ("Error: No API key found for " ++
        providerName (mode.activeProvider.getD Provider.openai)) := by
    simp [executePhaseContent, hmode, hcloud]
  have hout : (executeTask vault net mode store task now).experience.output =
      executePhaseContent vault net mode task := rfl
  have hsucc : (executeTask vault net mode store task now).experience.success =
      !(strIncludes (executePhaseContent vault net mode task) "error") := rfl
  have happ : (executeTask vault net mode store task now).newStore =
      store ++ [(executeTask vault net mode store task now).experience] := rfl
  refine ⟨hcloud, ?_, hout.trans hcontent, ?_, rfl, ?_⟩
  · intro net2
    rw [hcloud]
    simp [executeCloud, hkey]
  · rw [hsucc, hcontent]
    cases mode.activeProvider.getD Provider.openai <;> decide
  · rw [happ]
    simp

/-- C3 (counterexample): the Reflect-phase similarity match is NOT the
symmetric contains-match the claim describes.  With one stored record
whose `taskDescription` is `"task 7"` and current task `"task 7 extended"`,
the stored description is contained in the current task text (so the
claimed symmetric match includes the record) but the code's one-directional
filter — stored description must contain the current text — returns the
empty list. -/
theorem reflect_similarity_not_symmetric :
    reflectSimilar [mkExp 7 true] "task 7 extended" = [] ∧
    reflectSimilarSpec [mkExp 7 true] "task 7 extended" = [mkExp 7 true] ∧
    reflectSimilar [mkExp 7 true] "task 7 extended" ≠
      reflectSimilarSpec [mkExp 7 true] "task 7 extended" := by
  refine ⟨by decide, by decide, by decide⟩

/-- C3 (amended): the Reflect phase's similar set is exactly the stored
records whose `taskDescription` contains the current task text as a
case-insensitive substring (one direction only — not the symmetric match),
and the reported success rate is the number of successful matches divided
by the total number of matches, with rate 0 when there are no matches. -/
theorem reflect_similarity_one_directional (store : List Experience)
    (task : String) :
    (∀ e, e ∈ reflectSimilar store task ↔
      e ∈ store ∧
        strIncludes (strToLower e.taskDescription) (strToLower task) = true) ∧
    reflectSuccessRate store task =
      (if (reflectSimilar store task).length = 0 then 0
       else ((reflectSimilar store task).filter (fun e => e.success)).length /
         ((reflectSimilar store task).length : Rat)) := by
  constructor
  · intro e
    simp [reflectSimilar, List.mem_filter]
  · rw [reflectSuccessRate]
    by_cases hl : (reflectSimilar store task).length = 0
    · have hnil : reflectSimilar store task = [] := List.length_eq_zero.mp hl
      simp [hnil]
    · simp [hl]

/-- C4: for every `executeTask` call (total under the reliable-storage
model: every phase catches its internal errors), the persisted
Experience's `success` is `false` exactly when the Execute phase's content
contains the literal substring `"error"`; the matching is case-sensitive,
so `"Execution failed: Error: boom"` (capital E only) yields
`success = true`. -/
theorem success_heuristic_iff (vault : Provider → Option String)
    (net : NetOracle) (mode : AgentMode) (store : List Experience)
    (task : String) (now : Nat) :
    ((executeTask vault net mode store task now).experience.success = false ↔
      strIncludes (executePhaseContent vault net mode task) "error" = true) ∧
    (executeTask vault net mode store task now).experience.output =
      executePhaseContent vault net mode task ∧
    strIncludes "An error occurred while parsing" "error" = true ∧
    strIncludes "The weather today is sunny" "error" = false ∧
    strIncludes "Execution failed: Error: boom" "error" = false := by
  refine ⟨?_, rfl, by decide, by decide, by decide⟩
  have hsucc : (executeTask vault net mode store task now).experience.success =
      !(strIncludes (executePhaseContent vault net mode task) "error") := rfl
  rw [hsucc]
  cases strIncludes (executePhaseContent vault net mode task) "error" <;> simp

/-- C5: every `executeTask` call appends exactly one Experience to the
store — the new store is the old store plus the returned record, so the
record count increases by exactly one (this holds for every store size,
including at or above `MAX_EXPERIENCES`, because the eviction result is
overwritten; storage-medium write failures are I/O conditions outside the
model). -/
theorem executeTask_persists_exactly_one (vault : Provider → Option String)
    (net : NetOracle) (mode : AgentMode) (store : List Experience)
    (task : String) (now : Nat) :
    (executeTask vault net mode store task now).newStore =
      store ++ [(executeTask vault net mode store task now).experience] ∧
    (executeTask vault net mode store task now).newStore.length =
      store.length + 1 := by
  have happ : (executeTask vault net mode store task now).newStore =
      store ++ [(executeTask vault net mode store task now).experience] := rfl
  refine ⟨happ, ?_⟩
  rw [happ]
  simp

/-- Witness for the amended missing-credential theorem at a concrete
cloud-mode call with an empty vault. -/
theorem missing_credential_caught_not_propagated_witness :
    executeCloud noKeyVault okNet cloudOpenAIMode "do it" =
      Except.error ("Error: No API key found for " ++
        providerName Provider.openai) ∧
    (executeTask noKeyVault okNet cloudOpenAIMode [] "do it" 5).experience.success =
      true ∧
    (executeTask noKeyVault okNet cloudOpenAIMode [] "do it" 5).newStore.length =
      1 := by
  have h := missing_credential_caught_not_propagated noKeyVault okNet
    cloudOpenAIMode [] "do it" 5 rfl rfl
  exact ⟨h.1, h.2.2.2.1, h.2.2.2.2.2⟩

/-- C6: `getSuccessRate` returns the count of records with `success = true`,
the count with `success = false`, and `rate = 100 * successful / total`
(0 on an empty total); the empty store gives `(0, 0, 0)` and a store with
3 successes and 1 failure gives `(3, 1, 75)`. -/
theorem getSuccessRate_contract (store : List Experience) :
    (getSuccessRate store).successful =
      (store.filter (fun e => e.success)).length ∧
    (getSuccessRate store).failed =
      (store.filter (fun e => !e.success)).length ∧
    (getSuccessRate store).rate =
      (if store.length = 0 then 0
       else 100 * ((store.filter (fun e => e.success)).length : Rat) /
         (store.length : Rat)) ∧
    getSuccessRate [] = ⟨0, 0, 0⟩ ∧
    getSuccessRate sampleStore4 = ⟨3, 1, 75⟩ := by
  refine ⟨rfl, ?_, ?_, rfl, ?_⟩
  · rw [length_filter_not_success]
    rfl
  · have hr : (getSuccessRate store).rate =
        (if 0 < store.length then
          (((store.filter (fun e => e.success)).length : Rat) /
            (store.length : Rat)) * 100
         else 0) := rfl
    rw [hr]
    by_cases h0 : store.length = 0
    · simp [h0]
    · rw [if_pos (Nat.pos_of_ne_zero h0), if_neg h0,
        div_mul_eq_mul_div, mul_comm]
  · simp [getSuccessRate, sampleStore4, mkExp]
    norm_num

/-- C7: deleting an id that is absent from the store raises no error and
leaves the stored records unchanged, and doing it twice in a row again
leaves the store unchanged both times (idempotent delete). -/
theorem deleteExperience_idempotent_absent (store : List Experience)
    (experienceId : String) (h : ∀ e ∈ store, e.id ≠ experienceId) :
    deleteExperience store experienceId = store ∧
    deleteExperience (deleteExperience store experienceId) experienceId =
      store := by
  have h1 : deleteExperience store experienceId = store := by
    rw [deleteExperience, List.filter_eq_self]
    intro a ha
    simpa using h a ha
  exact ⟨h1, by rw [h1, h1]⟩

/-- Witness for the idempotent-delete theorem at a concrete one-record
store and an absent id. -/
theorem deleteExperience_idempotent_absent_witness :
    deleteExperience [mkExp 0 true] "absent" = [mkExp 0 true] ∧
    deleteExperience (deleteExperience [mkExp 0 true] "absent") "absent" =
      [mkExp 0 true] :=
  deleteExperience_idempotent_absent [mkExp 0 true] "absent" (by decide)

/-- C8 (code bug): the claim describes the intended download flow (reject
and delete a missing or sub-1MB file, save a record for a ≥ 1MB one), and
`verifyFileIntegrity` does implement exactly that 1MB floor — but no
download can ever complete: `getStorageInfo` is a placeholder reporting 0
bytes free, so `downloadModel`'s guard `freeSpace < 100MB` throws
`"Insufficient storage space"` before the download starts, for every
input, and no model record is ever saved. -/
theorem downloadModel_always_insufficient_storage (models : List Model)
    (url modelName : String) (outcome : DownloadOutcome) (now : Nat) :
    downloadModel models url modelName outcome now =
      Except.error "Error: Insufficient storage space" ∧
    getStorageInfo.freeSpace = 0 ∧
    verifyFileIntegrity none = ⟨0, false, some "File does not exist"⟩ ∧
    verifyFileIntegrity (some 5) = ⟨5, false, some "File size too small"⟩ ∧
    verifyFileIntegrity (some (2 * 1024 * 1024)) =
      ⟨2 * 1024 * 1024, true, none⟩ := by
  refine ⟨rfl, rfl, rfl, by decide, by decide⟩

/-- C9: `getAllKeys` returns one masked entry per provider that has a
stored key (in provider-list order), the `key` field of every returned
entry is the literal `"***hidden***"`, and the result depends only on
which providers have a key present: two vault states with the same
presence pattern but different secret values yield identical results. -/
theorem getAllKeys_hides_secrets (vault vault2 : Provider → Option String)
    (now : Nat) (h : ∀ p, hasKey vault p = hasKey vault2 p) :
    getAllKeys vault now =
      (vaultProviders.filter (fun p => hasKey vault p)).map
        (fun p => ⟨p, "***hidden***", true, now⟩) ∧
    (∀ k ∈ getAllKeys vault now, k.key = "***hidden***") ∧
    getAllKeys vault now = getAllKeys vault2 now := by
  have h1 : getAllKeys vault now =
      (vaultProviders.filter (fun p => hasKey vault p)).map
        (fun p => ⟨p, "***hidden***", true, now⟩) := by
    simpa [getAllKeys] using foldl_keys_eq vault now vaultProviders []
  have h2 : getAllKeys vault2 now =
      (vaultProviders.filter (fun p => hasKey vault2 p)).map
        (fun p => ⟨p, "***hidden***", true, now⟩) := by
    simpa [getAllKeys] using foldl_keys_eq vault2 now vaultProviders []
  refine ⟨h1, ?_, ?_⟩
  · intro k hk
    rw [h1] at hk
    obtain ⟨p, _, rfl⟩ := List.mem_map.mp hk
    rfl
  · rw [h1, h2]
    have hf : vaultProviders.filter (fun p => hasKey vault p) =
        vaultProviders.filter (fun p => hasKey vault2 p) :=
      List.filter_congr (fun a _ => h a)
    rw [hf]

/-- Witness for the vault-listing theorem at two concrete vaults holding
the same provider (`openai`) with different secret values. -/
theorem getAllKeys_hides_secrets_witness :
    getAllKeys vaultA 7 = [⟨Provider.openai, "***hidden***", true, 7⟩] ∧
    getAllKeys vaultA 7 = getAllKeys vaultB 7 := by
  have h := getAllKeys_hides_secrets vaultA vaultB 7 (fun p => by cases p <;> rfl)
  refine ⟨?_, h.2.2⟩
  rw [h.1]
  rfl

/-- C10: after `setActiveModel modelId` the record count is unchanged,
every record's `isActive` equals whether its id matches the argument (so
the matching record, if any, is active and all others are inactive),
every other field of every record is unchanged, and — with pairwise
distinct stored ids — at most one record is active. -/
theorem setActiveModel_single_active (models : List Model) (modelId : String)
    (h : (models.map Model.id).Nodup) :
    (setActiveModel models modelId).length = models.length ∧
    (∀ m ∈ setActiveModel models modelId, m.isActive = (m.id == modelId)) ∧
    (setActiveModel models modelId).map modelData = models.map modelData ∧
    ((setActiveModel models modelId).filter (fun m => m.isActive)).length ≤
      1 := by
  refine ⟨by simp [setActiveModel], ?_, ?_, ?_⟩
  · intro m hm
    rw [setActiveModel] at hm
    obtain ⟨a, _, rfl⟩ := List.mem_map.mp hm
    rfl
  · rw [setActiveModel, List.map_map]
    rfl
  · rw [setActiveModel_filter_active]
    simpa using length_filter_id_le_one models modelId h

/-- Witness for the single-active-model theorem on a concrete two-model
store with distinct ids. -/
theorem setActiveModel_single_active_witness :
    (setActiveModel [modelA, modelB] "m1").length = 2 ∧
    ((setActiveModel [modelA, modelB] "m1").filter
      (fun m => m.isActive)).length ≤ 1 := by
  have h := setActiveModel_single_active [modelA, modelB] "m1" (by decide)
  exact ⟨h.1, h.2.2.2⟩

end Raju
